import Mathlib

/-!
Verification of the ragmaker ingestion/query pipeline against its
natural-language specification.  Each JavaScript service relevant to the
claims is shallowly embedded as executable Lean definitions; machine
numbers are modelled as `Nat`/`Int`, JavaScript exceptions as `Except`,
and absent/undefined fields as `Option`.  Floating-point percentage
arithmetic is modelled by exact integer cross-multiplication.
-/

/-! ## String helpers shared by the embeddings -/

/-- Replace the first occurrence of `pat` by `repl` in a character list,
mirroring JavaScript `String.prototype.replace` with a string pattern
(which replaces only the first occurrence and returns the input unchanged
when the pattern does not occur). -/
def replaceFirstChars (pat repl : List Char) : List Char → List Char
  | [] => []
  | c :: rest =>
    if pat.isPrefixOf (c :: rest) then repl ++ (c :: rest).drop pat.length
    else c :: replaceFirstChars pat repl rest

/-- String version of `replaceFirstChars`. -/
def replaceFirst (s pat repl : String) : String :=
  String.mk (replaceFirstChars pat.data repl.data s.data)

/-- Whether `pat` occurs as a contiguous run inside `s`
(JavaScript `String.prototype.includes`). -/
def hasInfixChars (pat : List Char) : List Char → Bool
  | [] => pat.isEmpty
  | c :: rest => pat.isPrefixOf (c :: rest) || hasInfixChars pat rest

/-- `containsSub s pat` is JavaScript `s.includes(pat)`. -/
def containsSub (s pat : String) : Bool :=
  hasInfixChars pat.data s.data

/-- The apostrophe character, used to build string literals of the source. -/
def apoChar : Char := Char.ofNat 39

/-- The literal fragment of the no-results answer the spec quotes. -/
def couldntFind : String := "couldn" ++ String.singleton apoChar ++ "t find"

/-- `map with explicit running index`, used to embed JavaScript
`Array.prototype.map((x, index) => ...)`. -/
def withIndexFrom {α β : Type} (f : Nat → α → β) : Nat → List α → List β
  | _, [] => []
  | i, a :: as => f i a :: withIndexFrom f (i + 1) as

/-! ## YouTubeRateLimiter (src/src/services/youtubeRateLimiter.js)

State relevant to quota accounting.  Persistence, the Bottleneck pacing
queue and wall-clock reset timers are I/O concerns outside the quota
arithmetic the claims are about; `quotaUsed`/`quotaLimit` are the fields
mutated by the embedded operations exactly as in the source. -/

namespace YouTubeRateLimiter

/-- The quota-accounting fields of the rate limiter. -/
structure QuotaState where
  quotaUsed : Nat
  quotaLimit : Nat
deriving Repr, DecidableEq

/-- The `quotaCosts` table of the constructor, as a lookup function. -/
def quotaCostsLookup : String → Option Nat
  | "channels.list" => some 1
  | "videos.list" => some 1
  | "playlistItems.list" => some 1
  | "search.list" => some 100
  | "captions.list" => some 50
  | "captions.download" => some 200
  | "comments.list" => some 1
  | "commentThreads.list" => some 1
  | _ => none

/-- `getQuotaCost`: strips the first occurrence of `youtube.` and of
`youtube/v3/` from the method name, then looks the result up in the cost
table, defaulting to 1 (the source's `|| 1`; no table entry is 0, so
JavaScript falsiness agrees with `Option.getD`). -/
def getQuotaCost (method : String) : Nat :=
  let methodName := replaceFirst (replaceFirst method "youtube." "") "youtube/v3/" ""
  (quotaCostsLookup methodName).getD 1

/-- `getRemainingQuota`: `Math.max(0, quotaLimit - quotaUsed)`; truncated
`Nat` subtraction computes exactly this. -/
def getRemainingQuota (st : QuotaState) : Nat :=
  st.quotaLimit - st.quotaUsed

/-- `isQuotaAvailable`: the remaining budget covers the method's cost. -/
def isQuotaAvailable (st : QuotaState) (method : String) : Bool :=
  getQuotaCost method ≤ getRemainingQuota st

/-- The threshold notifications the limiter can emit. -/
inductive QuotaEvent where
  | quotaWarning
  | quotaCritical
  | quotaExhausted
  | quotaReset
deriving Repr, DecidableEq

/-- `updateQuotaUsage` (lines 185-224): debit the cost, then emit
`quotaCritical` when `percentUsed >= 95`, else `quotaWarning` when
`percentUsed >= 80`, and additionally `quotaExhausted` when the remaining
budget reaches 0.  `percentUsed >= t` is `(used / limit) * 100 >= t`,
modelled exactly as `100 * used >= t * limit`. -/
def updateQuotaUsage (st : QuotaState) (cost : Nat) : QuotaState × List QuotaEvent :=
  let used := st.quotaUsed + cost
  let st2 : QuotaState := { st with quotaUsed := used }
  let remaining := st2.quotaLimit - used
  let thresholdEvents :=
    if 95 * st2.quotaLimit ≤ 100 * used then [QuotaEvent.quotaCritical]
    else if 80 * st2.quotaLimit ≤ 100 * used then [QuotaEvent.quotaWarning]
    else []
  let exhaustedEvents := if remaining = 0 then [QuotaEvent.quotaExhausted] else []
  (st2, thresholdEvents ++ exhaustedEvents)

/-- A JavaScript error value: optional numeric `code` plus `message`. -/
structure JsError where
  code : Option Nat
  message : String

/-- The observable outcome of one `executeWithRateLimit` call:
the returned/thrown result, the final quota state, whether the wrapped
`apiCall` was ever invoked, and the threshold events emitted. -/
structure ExecOutcome (α : Type) where
  result : Except String α
  finalState : QuotaState
  fnInvoked : Bool
  events : List QuotaEvent

/-- `executeWithRateLimit` (lines 226-263): reject up front when the quota
does not cover the method's cost; otherwise run the call, debiting the
quota via `updateQuotaUsage` on success; on a 403 quotaExceeded error,
force `quotaUsed` to the limit.  The Bottleneck scheduling (pacing,
priority) does not alter these data outcomes and is not modelled. -/
def executeWithRateLimit {α : Type} (st : QuotaState) (method : String)
    (apiCall : Except JsError α) : ExecOutcome α :=
  if isQuotaAvailable st method then
    match apiCall with
    | Except.ok v =>
      let su := updateQuotaUsage st (getQuotaCost method)
      { result := Except.ok v, finalState := su.1, fnInvoked := true, events := su.2 }
    | Except.error e =>
      if e.code == some 403 && containsSub e.message "quotaExceeded" then
        { result := Except.error "YouTube API quota exceeded. Please wait for quota reset."
          finalState := { st with quotaUsed := st.quotaLimit }
          fnInvoked := true
          events := [] }
      else
        { result := Except.error e.message, finalState := st, fnInvoked := true, events := [] }
  else
    { result := Except.error ("Insufficient quota for " ++ method)
      finalState := st
      fnInvoked := false
      events := [] }

end YouTubeRateLimiter

/-! ## YouTubeService (src/src/services/youtube.js) -/

namespace YouTubeService

/-- Numeric value of a digit run (`parseInt` on a string of digits). -/
def digitsToNat (ds : List Char) : Nat :=
  ds.foldl (fun acc c => 10 * acc + (c.toNat - 48)) 0

/-- Suffix after the leftmost occurrence of the literal `PT`, or `none`
when `PT` does not occur — exactly where the source's regex
`/PT(?:(\d+)H)?(?:(\d+)M)?(?:(\d+)S)?/` matches (all three groups are
optional, so the regex matches at the first `PT`). -/
def afterPT : List Char → Option (List Char)
  | [] => none
  | 'P' :: 'T' :: rest => some rest
  | _ :: rest => afterPT rest

/-- One optional regex group `(?:(\d+)U)?`: consume a maximal digit run
immediately followed by the unit character `u`; otherwise match empty and
contribute 0 (the source's `parseInt(match[i] || 0)`).  Backtracking
cannot split the digit run because a digit is never the unit letter. -/
def grabUnit (u : Char) (cs : List Char) : Nat × List Char :=
  let ds := cs.takeWhile Char.isDigit
  match ds, cs.drop ds.length with
  | [], _ => (0, cs)
  | _ :: _, c :: rest => if c = u then (digitsToNat ds, rest) else (0, cs)
  | _ :: _, [] => (0, cs)

/-- `parseDuration` (lines 358-368): parse an ISO-8601 duration such as
`PT1M30S` to seconds; a string the regex does not match yields 0. -/
def parseDuration (duration : String) : Nat :=
  match afterPT duration.data with
  | none => 0
  | some rest =>
    let h := grabUnit 'H' rest
    let m := grabUnit 'M' h.2
    let s := grabUnit 'S' m.2
    h.1 * 3600 + m.1 * 60 + s.1

/-- The metadata fields of one video that the shorts filter consults.
`duration` is `none` when the field is absent; the source's falsiness
check also treats the empty string as absent. -/
structure VideoMeta where
  duration : Option String
deriving Repr, DecidableEq

/-- One enumerated video as passed through `getChannelTranscripts`. -/
structure ChannelVideo where
  videoId : String
  title : String
deriving Repr, DecidableEq

/-- The predicate of the shorts filter (lines 266-278): keep the video
when its metadata or duration is absent/falsy, otherwise keep it exactly
when the parsed duration is not under 60 seconds. -/
def shortsKeep (videoMeta : Option VideoMeta) : Bool :=
  match videoMeta with
  | none => true
  | some meta =>
    match meta.duration with
    | none => true
    | some d =>
      if d = "" then true
      else decide (¬ parseDuration d < 60)

/-- The shorts-filtering step of `getChannelTranscripts` (lines 264-284):
when `excludeShorts` is set, keep exactly the videos `shortsKeep` admits;
otherwise the list passes through unchanged. -/
def filterShorts (excludeShorts : Bool) (metadata : String → Option VideoMeta)
    (videos : List ChannelVideo) : List ChannelVideo :=
  if excludeShorts then videos.filter (fun v => shortsKeep (metadata v.videoId))
  else videos

/-- One raw transcript segment: `segment?.snippet?.text` and
`segment?.text`, each possibly absent. -/
structure Segment where
  snippetText : Option String
  text : Option String
deriving Repr, DecidableEq

/-- `segment?.snippet?.text || segment?.text || ''`: first truthy
(non-empty) alternative, else the empty string. -/
def segText (s : Segment) : String :=
  let a := s.snippetText.getD ""
  if a = "" then s.text.getD "" else a

/-- `transcript_segment_list` object: its `initial_segments` field may be
absent. -/
structure TSL where
  initialSegments : Option (List Segment)
deriving Repr, DecidableEq

/-- The three segment-container shapes `extractText` recognises for
`transcriptInfo.transcript.content.body`: an object carrying
`initial_segments` and/or `transcript_segment_list`, or an array whose
first element may carry `transcript_segment_list`. -/
inductive SegmentBodyShape where
  | obj (initialSegments : Option (List Segment)) (tsl : Option TSL)
  | arr (elems : List (Option TSL))
deriving Repr, DecidableEq

/-- The segment list `extractText` selects from the body (lines 122-130):
`initial_segments` when present (an array is truthy even when empty),
else the array shape's `segmentList[0]?.transcript_segment_list?.initial_segments || []`,
else the object's `transcript_segment_list.initial_segments || []`,
else the empty default. -/
def selectSegments : SegmentBodyShape → List Segment
  | SegmentBodyShape.obj (some segs) _ => segs
  | SegmentBodyShape.obj none (some tsl) => tsl.initialSegments.getD []
  | SegmentBodyShape.obj none none => []
  | SegmentBodyShape.arr [] => []
  | SegmentBodyShape.arr (some tsl :: _) => tsl.initialSegments.getD []
  | SegmentBodyShape.arr (none :: _) => []

/-- JavaScript `\s` for the characters these transcripts contain:
space, tab, line feed, carriage return, vertical tab, form feed. -/
def jsWhitespace (c : Char) : Bool :=
  c == ' ' || c == '\t' || c == '\n' || c == '\r' ||
    c == Char.ofNat 11 || c == Char.ofNat 12

/-- `replace(/\s+/g, ' ')`: collapse every whitespace run to one space.
The flag records whether the previous character was whitespace (i.e.
whether a run is already open), which makes the recursion structural. -/
def collapseWsAux (prevWs : Bool) : List Char → List Char
  | [] => []
  | c :: rest =>
    if jsWhitespace c then
      if prevWs then collapseWsAux true rest else ' ' :: collapseWsAux true rest
    else c :: collapseWsAux false rest

/-- `replace(/\s+/g, ' ')` on a character list. -/
def collapseWs (cs : List Char) : List Char := collapseWsAux false cs

/-- `String.prototype.trim`: drop whitespace from both ends. -/
def trimChars (cs : List Char) : List Char :=
  ((cs.dropWhile jsWhitespace).reverse.dropWhile jsWhitespace).reverse

/-- `.replace(/\s+/g, ' ').trim()` on a string. -/
def normalizeText (s : String) : String :=
  String.mk (trimChars (collapseWs s.data))

/-- The normalized full text built at lines 134-139: map segments to
their text, drop empty ones (`filter(Boolean)`), join with spaces,
collapse whitespace, trim. -/
def fullTextOf (segments : List Segment) : String :=
  normalizeText (String.intercalate " " ((segments.map segText).filter (fun t => ¬ t = "")))

/-- The result of `extractText`: a categorized failure or a success
carrying video id, normalized transcript and segment count. -/
inductive ExtractResult where
  | failure (category : String) (details : String)
  | success (videoId : String) (transcript : String) (segments : Nat)
deriving Repr, DecidableEq

/-- `extractText` (lines 118-144).  `none` stands for a missing
`transcriptInfo.transcript.content.body` chain.  A selected segment list
that is empty is `NO_CAPTIONS`; a normalized text of at most 10
characters is `TOO_SHORT`; otherwise success. -/
def extractText (videoId : String) (transcriptInfo : Option SegmentBodyShape) : ExtractResult :=
  match transcriptInfo with
  | none => ExtractResult.failure "STRUCTURE_UNSUPPORTED" "Invalid transcript structure"
  | some body =>
    let segments := selectSegments body
    if segments.length = 0 then ExtractResult.failure "NO_CAPTIONS" "No transcript segments"
    else
      let fullText := fullTextOf segments
      if fullText.length ≤ 10 then
        ExtractResult.failure "TOO_SHORT"
          ("Transcript too short (" ++ toString fullText.length ++ " chars)")
      else ExtractResult.success videoId fullText segments.length

end YouTubeService

/-! ## EmbeddingService (src/src/services/embeddings.js) -/

namespace EmbeddingService

/-- One chunk as produced by `splitTranscript`: the split text, the
caller-supplied metadata it inherits, and its position fields. -/
structure SplitChunk (M : Type) where
  content : String
  metadata : M
  chunkIndex : Nat
  totalChunks : Nat

/-- `splitTranscript` (lines 215-229).  The text splitter itself is the
external langchain `RecursiveCharacterTextSplitter` (an out-of-scope
collaborator), modelled as a parameter returning the split documents as
(content, metadata) pairs; the embedded part is the second pass that
stamps every document with its index and the total count. -/
def splitTranscript {M : Type} (textSplitter : String → M → List (String × M))
    (transcript : String) (metadata : M) : List (SplitChunk M) :=
  let chunks := textSplitter transcript metadata
  withIndexFrom
    (fun index chunk =>
      { content := chunk.1
        metadata := chunk.2
        chunkIndex := index
        totalChunks := chunks.length })
    0 chunks

end EmbeddingService

/-! ## VectorStoreService (src/unnamed/part_008) -/

namespace VectorStoreService

/-- A vector record: the ID the store keys on, plus its payload
(vector and metadata, opaque to the namespace logic). -/
structure VRec (α : Type) where
  id : String
  payload : α
deriving Repr, DecidableEq

/-- The batching loop `for (let i = 0; i < chunks.length; i += batchSize)`
with `slice(i, i + batchSize)`.  A `batchSize` of 0 would loop forever in
the source (never reached: the default is 100); the model returns no
batches there. -/
def chunksOf {α : Type} (batchSize : Nat) : List α → List (List α)
  | [] => []
  | a :: as =>
    if batchSize = 0 then []
    else (a :: as).take batchSize :: chunksOf batchSize ((a :: as).drop batchSize)
termination_by l => l.length
decreasing_by
  rename_i hbs
  simp only [List.length_drop, List.length_cons]
  omega

/-- The per-batch namespace step of `upsertBatch`: when a namespace is
configured (non-empty string), every record ID gains the prefix
`namespace + underscore`; otherwise the batch passes through unchanged. -/
def applyNamespace {α : Type} (ns : String) (batch : List (VRec α)) : List (VRec α) :=
  if ns = "" then batch
  else batch.map (fun c => { c with id := ns ++ "_" ++ c.id })

/-- `upsertBatch` (lines 20-39): the sequence of batches handed to
`index.upsert`, in order. -/
def upsertBatch {α : Type} (ns : String) (chunks : List (VRec α)) (batchSize : Nat) :
    List (List (VRec α)) :=
  (chunksOf batchSize chunks).map (applyNamespace ns)

/-- All records stored by one `upsertBatch` call, in order. -/
def storedRecords {α : Type} (ns : String) (chunks : List (VRec α)) (batchSize : Nat) :
    List (VRec α) :=
  (upsertBatch ns chunks batchSize).flatten

/-- `query` (lines 47-70) applied to the provider's ranked results (the
provider is asked for `topK * 3`): when a namespace is configured, keep
only results whose truthy ID starts with the namespace prefix, then
truncate to `topK`; otherwise just truncate. -/
def query {α : Type} (ns : String) (results : List (VRec α)) (topK : Nat) :
    List (VRec α) :=
  if ns = "" then results.take topK
  else
    (results.filter (fun r => !(r.id == "") && String.isPrefixOf (ns ++ "_") r.id)).take topK

end VectorStoreService

/-! ## The background indexing task of POST /api/index-channel
(src/src/api/server.js, lines 132-281)

The loop over fetched transcripts, its cooperative cancellation check,
and the single catch handler that receives every exception of the task.
The concurrently mutated `indexingStatus.cancelled` flag is modelled as
`cancelFlagAt i`: its value when loop iteration `i` begins (the flag is
set once by POST /api/cancel-indexing and never cleared during a run, so
after the loop it is read as `cancelFlagAt` of the video count).
Wall-clock fields (`startTime`, `endTime`) are not modelled. -/

namespace Server

/-- One video of the `transcripts` list handed to the task.  `transcript`
is `none` when the property is absent; the source's falsiness check also
treats the empty string as missing. -/
structure SVideo where
  videoId : String
  title : String
  url : String
  transcript : Option String
deriving Repr, DecidableEq

/-- The `!video.transcript` check at line 182. -/
def transcriptFalsy (v : SVideo) : Bool :=
  match v.transcript with
  | none => true
  | some s => s == ""

/-- An entry of `indexingStatus.successVideos` (metadata fields
`duration`/`viewCount` omitted: they pass through untouched). -/
structure SuccessVideo where
  videoId : String
  title : String
  url : String
  chunksCreated : Nat
deriving Repr, DecidableEq

/-- An entry of `indexingStatus.failedVideos`. -/
structure FailedVideo where
  videoId : String
  title : String
  url : String
  reason : String
deriving Repr, DecidableEq

/-- The `indexingStatus` object. -/
structure IndexingStatus where
  isIndexing : Bool
  progress : Nat
  message : String
  channelId : String
  totalVideos : Nat
  processedVideos : Nat
  cancelled : Bool
  successVideos : List SuccessVideo
  failedVideos : List FailedVideo
deriving Repr, DecidableEq

/-- The per-video loop (lines 169-217).  Each iteration first checks the
cancellation flag and throws `Indexing cancelled by user` when it is set
(the `Bool` carried with the error is the flag's value at the throw, read
back by the catch handler); otherwise it updates the progress fields,
then either records a missing transcript as failed, or runs
`embeddingService.processVideo` — whose chunks are appended on success
and whose error message is recorded as failed on exception.
`Math.floor((i / n) * 50)` is modelled as exact `Nat` division. -/
def processLoop {Chunk : Type} (process : SVideo → Except String (List Chunk))
    (cancelFlagAt : Nat → Bool) (n : Nat) :
    List SVideo → Nat → List Chunk → IndexingStatus →
      Except (String × Bool) (List Chunk × IndexingStatus)
  | [], _, embeddings, st => Except.ok (embeddings, st)
  | v :: rest, i, embeddings, st =>
    if cancelFlagAt i then Except.error ("Indexing cancelled by user", cancelFlagAt i)
    else
      let st1 : IndexingStatus :=
        { st with
          message := "Processing video " ++ toString (i + 1) ++ "/" ++ toString n ++ ": " ++ v.title
          processedVideos := i + 1
          progress := 20 + i * 50 / n }
      if transcriptFalsy v then
        processLoop process cancelFlagAt n rest (i + 1) embeddings
          { st1 with
            failedVideos := st1.failedVideos ++
              [{ videoId := v.videoId, title := v.title, url := v.url
                 reason := "No transcript content" }] }
      else
        match process v with
        | Except.ok chunks =>
          processLoop process cancelFlagAt n rest (i + 1) (embeddings ++ chunks)
            { st1 with
              successVideos := st1.successVideos ++
                [{ videoId := v.videoId, title := v.title, url := v.url
                   chunksCreated := chunks.length }] }
        | Except.error msg =>
          processLoop process cancelFlagAt n rest (i + 1) embeddings
            { st1 with
              failedVideos := st1.failedVideos ++
                [{ videoId := v.videoId, title := v.title, url := v.url
                   reason := msg }] }

/-- The status built by the catch handler (lines 269-280): every field is
reset — `totalVideos` and `processedVideos` to 0 — except the channel id,
the error message, and the live cancellation flag; the handler's object
literal carries no `successVideos`/`failedVideos` (undefined in the
source, modelled as empty lists). -/
def catchStatus (channelId msg : String) (flag : Bool) : IndexingStatus :=
  { isIndexing := false
    progress := 0
    message := "Error: " ++ msg
    channelId := channelId
    totalVideos := 0
    processedVideos := 0
    cancelled := flag
    successVideos := []
    failedVideos := [] }

/-- What the background task leaves behind: the final `indexingStatus`
and, when `vectorStore.indexChannel` was reached, the embeddings handed
to it (`none` means the upsert was never invoked). -/
structure BackgroundOutcome (Chunk : Type) where
  finalStatus : IndexingStatus
  upsertCalledWith : Option (List Chunk)
deriving Repr, DecidableEq

/-- The fresh status installed before the task starts (lines 115-127),
with `totalVideos` and the initial `failedVideos` filled in from the
`getChannelTranscripts` result (lines 148-153). -/
def startStatus (channelId : String) (tv : Nat) (initialFailed : List FailedVideo) :
    IndexingStatus :=
  { isIndexing := true
    progress := 20
    message := "Fetching channel videos..."
    channelId := channelId
    totalVideos := tv
    processedVideos := 0
    cancelled := false
    successVideos := []
    failedVideos := initialFailed }

/-- The background task from the point the transcripts are available
(lines 148-281): run the per-video loop, then hand the accumulated
embeddings to `vectorStore.indexChannel`; any exception — the
cancellation throw, or an upsert failure — lands in the single catch
handler, which resets the status and leaves the upsert either not
invoked or failed.  (The empty-transcripts throw of lines 155-160 and
the channel-bookkeeping writes after a successful upsert do not affect
the modelled outcome fields and are elided; the claims quantify over
non-empty transcript lists.) -/
def backgroundIndexing {C : Type} (channelId : String) (transcripts : List SVideo)
    (initialFailed : List FailedVideo) (tv : Nat)
    (process : SVideo → Except String (List C))
    (upsert : List C → Except String Unit)
    (cancelFlagAt : Nat → Bool) : BackgroundOutcome C :=
  let st0 := startStatus channelId tv initialFailed
  match processLoop process cancelFlagAt transcripts.length transcripts 0 [] st0 with
  | Except.error e => { finalStatus := catchStatus channelId e.1 e.2, upsertCalledWith := none }
  | Except.ok (embeddings, st1) =>
    match upsert embeddings with
    | Except.error msg =>
      { finalStatus := catchStatus channelId msg (cancelFlagAt transcripts.length)
        upsertCalledWith := some embeddings }
    | Except.ok _ =>
      { finalStatus :=
          { st1 with
            isIndexing := false
            progress := 100
            message := "Successfully indexed " ++ toString st1.successVideos.length ++
              " videos, " ++ toString st1.failedVideos.length ++ " failed" }
        upsertCalledWith := some embeddings }

end Server

/-! ## RAGService.query (the rag service source bundled in
src/reports/rate-limiting-implementation-2025-08-18.md)

The pipeline embed-question → vector search → context → prompt →
generation, with every provider call modelled as an `Except` outcome;
the single catch converts any failure into a degraded response carrying
the progressively built debug record. -/

namespace RAGService

/-- The metadata carried by one vector-search result. -/
structure SearchMeta where
  videoId : String
  videoTitle : String
  videoUrl : String
  content : String
deriving Repr, DecidableEq

/-- One ranked vector-search result; scores (floats in the source) are an
opaque type parameter, only passed through. -/
structure SearchResult (S : Type) where
  score : S
  metadata : SearchMeta

/-- One deduplicated source entry of the response. -/
structure Source where
  videoId : String
  title : String
  url : String
deriving Repr, DecidableEq

/-- One entry of the response's `chunks` output. -/
structure ChunkOut (S : Type) where
  content : String
  videoTitle : String
  score : S

/-- The `debug` record returned with every response. -/
structure DebugInfo where
  question : String
  profileId : String
  chunksCount : Nat
  context : String
  systemPrompt : String
  userPrompt : String
  error : Option String

/-- What `profiles.buildPrompt` returns (temperature elided: it only
parameterizes the generation call). -/
structure PromptConfig where
  systemPrompt : String
  userPrompt : String

/-- The full return value of `query`. -/
structure RagResponse (S : Type) where
  answer : String
  sources : List Source
  chunks : List (ChunkOut S)
  debug : DebugInfo

/-- The numbered context block: one entry per search result,
`[n] From "title" (url): content`, joined by blank lines. -/
def buildContext {S : Type} (searchResults : List (SearchResult S)) : String :=
  String.intercalate "\n\n"
    (withIndexFrom
      (fun index r =>
        "[" ++ toString (index + 1) ++ "] From \"" ++ r.metadata.videoTitle ++ "\" (" ++
          r.metadata.videoUrl ++ "):\n" ++ r.metadata.content)
      0 searchResults)

/-- Insertion into a JavaScript `Map` built from an entry list: a repeated
key keeps its first-seen position but takes the later value. -/
def insertEntry {β : Type} (acc : List (String × β)) (e : String × β) : List (String × β) :=
  if acc.any (fun p => p.1 == e.1) then
    acc.map (fun p => if p.1 = e.1 then (p.1, e.2) else p)
  else acc ++ [e]

/-- `new Map(entries)` as its association list in key insertion order. -/
def jsMapEntries {β : Type} (es : List (String × β)) : List (String × β) :=
  es.foldl insertEntry []

/-- The source deduplication
`[...new Map(searchResults.map(r => [r.metadata.videoId, {...}])).values()]`. -/
def dedupeSources {S : Type} (results : List (SearchResult S)) : List Source :=
  (jsMapEntries (results.map (fun r =>
    (r.metadata.videoId,
      ({ videoId := r.metadata.videoId
         title := r.metadata.videoTitle
         url := r.metadata.videoUrl } : Source))))).map Prod.snd

/-- The fixed no-results answer (its text contains the quoted
`couldn't find` fragment). -/
def noAnswerText : String :=
  "I " ++ couldntFind ++
    " any relevant information to answer your question. This could mean: 1) No channels are indexed yet, 2) Your question is outside the scope of indexed content, or 3) The knowledge base is empty."

/-- The fixed degraded answer returned by the catch handler. -/
def errorAnswerText : String :=
  "Sorry, I encountered an error processing your question. Please check the debug terminal for details."

/-- The debug record as first initialized. -/
def debug0 (question profileId : String) : DebugInfo :=
  { question := question, profileId := profileId, chunksCount := 0
    context := "", systemPrompt := "", userPrompt := "", error := none }

/-- The `try` body of `query`: each provider step either yields a value
or throws; a throw carries the debug record as built so far, which is
what the catch handler observes.  Zero search results short-circuit into
the fixed no-results response. -/
def queryTry {V S : Type} (question profileId : String)
    (createEmbedding : Except String V)
    (search : V → Except String (List (SearchResult S)))
    (buildPrompt : String → Except String PromptConfig)
    (complete : PromptConfig → Except String String) :
    Except (String × DebugInfo) (RagResponse S) :=
  let d0 := debug0 question profileId
  match createEmbedding with
  | Except.error e => Except.error (e, d0)
  | Except.ok emb =>
    match search emb with
    | Except.error e => Except.error (e, d0)
    | Except.ok searchResults =>
      if searchResults.length = 0 then
        Except.ok
          { answer := noAnswerText
            sources := []
            chunks := []
            debug :=
              { d0 with
                context := "No relevant content found in knowledge base"
                systemPrompt := "No system prompt generated - no context available"
                userPrompt := "Question: " ++ question } }
      else
        let context := buildContext searchResults
        let d1 := { d0 with chunksCount := searchResults.length, context := context }
        match buildPrompt context with
        | Except.error e => Except.error (e, d1)
        | Except.ok pc =>
          let d2 := { d1 with systemPrompt := pc.systemPrompt, userPrompt := pc.userPrompt }
          match complete pc with
          | Except.error e => Except.error (e, d2)
          | Except.ok answer =>
            Except.ok
              { answer := answer
                sources := dedupeSources searchResults
                chunks := searchResults.map (fun r =>
                  { content := r.metadata.content
                    videoTitle := r.metadata.videoTitle
                    score := r.score })
                debug := d2 }

/-- `query`: the try body with its catch handler.  The function is total
— every failure is converted into the degraded response, with the error
message in `debug.error` and the falsy debug fields replaced by the
ERROR placeholders. -/
def query {V S : Type} (question profileId : String)
    (createEmbedding : Except String V)
    (search : V → Except String (List (SearchResult S)))
    (buildPrompt : String → Except String PromptConfig)
    (complete : PromptConfig → Except String String) : RagResponse S :=
  match queryTry question profileId createEmbedding search buildPrompt complete with
  | Except.ok r => r
  | Except.error e =>
    { answer := errorAnswerText
      sources := []
      chunks := []
      debug :=
        { e.2 with
          error := some e.1
          context := if e.2.context = "" then "ERROR: Could not retrieve context" else e.2.context
          systemPrompt :=
            if e.2.systemPrompt = "" then "ERROR: Could not generate prompt" else e.2.systemPrompt
          userPrompt :=
            if e.2.userPrompt = "" then "ERROR: Could not generate prompt" else e.2.userPrompt } }

/-- Distinct keys in first-seen order — the specification-side notion the
source deduplication is compared against. -/
def firstSeenDedup (l : List String) : List String :=
  l.foldl (fun acc k => if k ∈ acc then acc else acc ++ [k]) []

end RAGService

/-! ## ChannelManager.addIndexedVideos (src/src/services/channelManager.js,
lines 180-195) -/

namespace ChannelManager

/-- The state `this.channels[channelId]` relevant to indexed-video
bookkeeping: `none` — the channel record is absent; `some none` — the
record exists without an `indexedVideos` field; `some (some l)` — the
recorded list. -/
def currentIndexed (existing : Option (Option (List String))) : List String :=
  match existing with
  | none => []
  | some none => []
  | some (some l) => l

/-- The list update performed by one `addIndexedVideos` call: append the
incoming IDs that are not already recorded (membership against a `Set`
snapshot of the existing list taken before the push). -/
def addIndexedVideosStep (current : List String) (videoIds : List String) : List String :=
  current ++ videoIds.filter (fun id => decide (id ∉ current))

/-- `addIndexedVideos` on the channel's `indexedVideos` field, materializing
the missing record/field as the empty list exactly as lines 181-188 do. -/
def addIndexedVideos (existing : Option (Option (List String))) (videoIds : List String) :
    List String :=
  addIndexedVideosStep (currentIndexed existing) videoIds

end ChannelManager

/-! ## Theorems -/

section QuotaTheorems

open YouTubeRateLimiter

/-- Every entry of the cost table is at least 1. -/
theorem quotaCostsLookup_ge_one (s : String) (c : Nat) (h : quotaCostsLookup s = some c) :
    1 ≤ c := by
  unfold quotaCostsLookup at h
  split at h <;> simp_all <;> omega

/-- The cost of any method is at least 1 (the table default is 1). -/
theorem one_le_getQuotaCost (method : String) : 1 ≤ getQuotaCost method := by
  simp only [getQuotaCost]
  cases h : quotaCostsLookup (replaceFirst (replaceFirst method "youtube." "") "youtube/v3/" "") with
  | none => simp
  | some c => simpa using quotaCostsLookup_ge_one _ c h

/-- C1: a metered call whose cost exceeds the remaining budget
(`cost > limit - used`, as integers) is rejected immediately with the
insufficient-quota error; the wrapped network function is never invoked
and `quotaUsed` is unchanged. -/
theorem C1_quota_reject {α : Type} (st : QuotaState) (method : String)
    (apiCall : Except JsError α)
    (h : (getQuotaCost method : ℤ) > (st.quotaLimit : ℤ) - (st.quotaUsed : ℤ)) :
    (executeWithRateLimit st method apiCall).result =
        Except.error ("Insufficient quota for " ++ method) ∧
      (executeWithRateLimit st method apiCall).fnInvoked = false ∧
      (executeWithRateLimit st method apiCall).finalState.quotaUsed = st.quotaUsed := by
  have hna : isQuotaAvailable st method = false := by
    have h1 : getRemainingQuota st < getQuotaCost method := by
      have hc := one_le_getQuotaCost method
      unfold getRemainingQuota
      omega
    unfold isQuotaAvailable
    simpa using h1
  refine ⟨?_, ?_, ?_⟩ <;> simp [executeWithRateLimit, hna]

/-- Witness for C1: a `search.list` call (cost 100) against a budget with
only 50 units remaining is rejected without invoking the call and
without touching the usage counter. -/
theorem C1_quota_reject_witness :
    (YouTubeRateLimiter.getQuotaCost "search.list" : ℤ) > (50 : ℤ) - (0 : ℤ) ∧
      (executeWithRateLimit (α := Nat) ⟨0, 50⟩ "search.list" (Except.ok 7)).fnInvoked = false ∧
      (executeWithRateLimit (α := Nat) ⟨0, 50⟩ "search.list"
          (Except.ok 7)).finalState.quotaUsed = 0 :=
  ⟨by decide,
   (C1_quota_reject ⟨0, 50⟩ "search.list" (Except.ok 7) (by decide)).2.1,
   (C1_quota_reject ⟨0, 50⟩ "search.list" (Except.ok 7) (by decide)).2.2⟩

/-- C4 counterexample: two consecutive successful `captions.download`
calls from usage 9400/10000 both land above the 95% threshold, usage only
grows between them, and yet `quotaCritical` is emitted by both calls —
the notification fires on every call above the threshold, not at most
once per upward crossing. -/
theorem C4_counterexample :
    (executeWithRateLimit (α := Nat) ⟨9400, 10000⟩ "captions.download"
        (Except.ok 0)).fnInvoked = true ∧
      (executeWithRateLimit (α := Nat)
          (executeWithRateLimit (α := Nat) ⟨9400, 10000⟩ "captions.download"
            (Except.ok 0)).finalState
          "captions.download" (Except.ok 0)).fnInvoked = true ∧
      (9400 : Nat) ≤ (executeWithRateLimit (α := Nat) ⟨9400, 10000⟩ "captions.download"
          (Except.ok 0)).finalState.quotaUsed ∧
      QuotaEvent.quotaCritical ∈
        (executeWithRateLimit (α := Nat) ⟨9400, 10000⟩ "captions.download"
          (Except.ok 0)).events ∧
      QuotaEvent.quotaCritical ∈
        (executeWithRateLimit (α := Nat)
          (executeWithRateLimit (α := Nat) ⟨9400, 10000⟩ "captions.download"
            (Except.ok 0)).finalState
          "captions.download" (Except.ok 0)).events := by
  decide

/-- C4 as amended: on every successful metered call the emitted
notifications are determined solely by the post-call usage level —
`quotaCritical` is emitted exactly when usage reaches 95% of the limit,
`quotaWarning` exactly when usage reaches 80% but not 95%, and
`quotaExhausted` exactly when the budget is fully consumed; in
particular each notification is re-emitted by every later call that
stays at or above its threshold, not once per upward crossing. -/
theorem C4_threshold_emission {α : Type} (st : QuotaState) (method : String) (v : α)
    (_hlim : 0 < st.quotaLimit)
    (havail : isQuotaAvailable st method = true) :
    (QuotaEvent.quotaCritical ∈ (executeWithRateLimit st method (Except.ok v)).events ↔
        95 * st.quotaLimit ≤ 100 * (st.quotaUsed + getQuotaCost method)) ∧
      (QuotaEvent.quotaWarning ∈ (executeWithRateLimit st method (Except.ok v)).events ↔
        80 * st.quotaLimit ≤ 100 * (st.quotaUsed + getQuotaCost method) ∧
          100 * (st.quotaUsed + getQuotaCost method) < 95 * st.quotaLimit) ∧
      (QuotaEvent.quotaExhausted ∈ (executeWithRateLimit st method (Except.ok v)).events ↔
        st.quotaLimit ≤ st.quotaUsed + getQuotaCost method) ∧
      (executeWithRateLimit st method (Except.ok v)).finalState.quotaUsed =
        st.quotaUsed + getQuotaCost method := by
  have hcalc : executeWithRateLimit st method (Except.ok v) =
      { result := Except.ok v
        finalState := { st with quotaUsed := st.quotaUsed + getQuotaCost method }
        fnInvoked := true
        events :=
          (if 95 * st.quotaLimit ≤ 100 * (st.quotaUsed + getQuotaCost method) then
              [QuotaEvent.quotaCritical]
            else if 80 * st.quotaLimit ≤ 100 * (st.quotaUsed + getQuotaCost method) then
              [QuotaEvent.quotaWarning]
            else []) ++
          (if st.quotaLimit - (st.quotaUsed + getQuotaCost method) = 0 then
              [QuotaEvent.quotaExhausted]
            else []) } := by
    simp [executeWithRateLimit, havail, updateQuotaUsage]
  rw [hcalc]
  refine ⟨?_, ?_, ?_, rfl⟩ <;>
    · simp only [List.mem_append, List.mem_singleton, List.mem_cons, List.not_mem_nil]
      split_ifs <;> simp_all <;> omega

/-- Witness for C4's amended theorem: the second of the two back-to-back
critical-zone calls of the counterexample scenario. -/
theorem C4_threshold_emission_witness :
    (0 : Nat) < (9600 : Nat) ∧
      isQuotaAvailable ⟨9600, 10000⟩ "captions.download" = true ∧
      (QuotaEvent.quotaCritical ∈
          (executeWithRateLimit (α := Nat) ⟨9600, 10000⟩ "captions.download"
            (Except.ok 0)).events ↔
        95 * 10000 ≤ 100 * (9600 + getQuotaCost "captions.download")) :=
  ⟨by decide, by decide,
   (C4_threshold_emission (α := Nat) ⟨9600, 10000⟩ "captions.download" 0
      (by decide) (by decide)).1⟩

end QuotaTheorems

section ShortsTheorems

open YouTubeService

/-- A duration string without the literal `PT` fails the regex and
parses to 0 seconds. -/
theorem parseDuration_of_no_match (d : String) (h : afterPT d.data = none) :
    parseDuration d = 0 := by
  unfold parseDuration
  rw [h]

/-- C3 counterexample: with short-exclusion enabled, a video whose
duration string `invalid` fails ISO-8601 parsing is dropped from the
filtered list (it parses to 0 seconds and is classified as a short),
not retained as the claim states. -/
theorem C3_counterexample :
    parseDuration "invalid" = 0 ∧
      filterShorts true (fun _ => some ⟨some "invalid"⟩)
        [⟨"v1", "title one"⟩] = [] := by
  decide

/-- C3 as amended: with short-exclusion enabled, a video whose metadata
record is absent, or whose duration field is absent or the empty string,
is retained (fail-open); but a video whose non-empty duration string
fails to match the duration pattern parses to 0 seconds and is excluded
as a short. -/
theorem C3_shorts_fail_open (metadata : String → Option VideoMeta)
    (videos : List ChannelVideo) (v : ChannelVideo) (hv : v ∈ videos) :
    ((metadata v.videoId = none ∨
        (∃ m, metadata v.videoId = some m ∧
          (m.duration = none ∨ m.duration = some ""))) →
      v ∈ filterShorts true metadata videos) ∧
    (∀ m d, metadata v.videoId = some m → m.duration = some d → d ≠ "" →
      afterPT d.data = none → v ∉ filterShorts true metadata videos) := by
  constructor
  · intro habs
    simp only [filterShorts, if_pos, List.mem_filter]
    refine ⟨hv, ?_⟩
    rcases habs with h | ⟨m, hm, hd⟩
    · simp [shortsKeep, h]
    · rcases hd with h2 | h2 <;> simp [shortsKeep, hm, h2]
  · intro m d hm hd hne hpt hcontra
    simp only [filterShorts, if_pos, List.mem_filter] at hcontra
    have hkeep : shortsKeep (metadata v.videoId) = false := by
      simp [shortsKeep, hm, hd, hne, parseDuration_of_no_match d hpt]
    rw [hkeep] at hcontra
    exact absurd hcontra.2 (by simp)

/-- Witness for C3's amended theorem: a video with a metadata record but
no duration field is retained by the shorts filter. -/
theorem C3_shorts_fail_open_witness :
    (⟨"v1", "title one"⟩ : ChannelVideo) ∈
      filterShorts true (fun _ => some ⟨none⟩) [⟨"v1", "title one"⟩] :=
  (C3_shorts_fail_open (fun _ => some ⟨none⟩) [⟨"v1", "title one"⟩]
      ⟨"v1", "title one"⟩ (by decide)).1
    (Or.inr ⟨⟨none⟩, rfl, Or.inl rfl⟩)

end ShortsTheorems

section TranscriptTheorems

open YouTubeService

/-- C9 counterexample: a transcript whose normalized text has exactly 10
characters — at least the claimed minimum of 10 — is still classified
`TOO_SHORT` (the source cutoff is `length <= 10`, not `length < 10`). -/
theorem C9_counterexample :
    (fullTextOf [⟨none, some "abcdefghij"⟩]).length = 10 ∧
      extractText "v"
          (some (SegmentBodyShape.obj (some [⟨none, some "abcdefghij"⟩]) none)) =
        ExtractResult.failure "TOO_SHORT" "Transcript too short (10 chars)" := by
  decide

/-- Unfolding of `extractText` on a present body. -/
theorem extractText_some (videoId : String) (body : SegmentBodyShape) :
    extractText videoId (some body) =
      if (selectSegments body).length = 0 then
        ExtractResult.failure "NO_CAPTIONS" "No transcript segments"
      else if (fullTextOf (selectSegments body)).length ≤ 10 then
        ExtractResult.failure "TOO_SHORT"
          ("Transcript too short (" ++
            toString (fullTextOf (selectSegments body)).length ++ " chars)")
      else
        ExtractResult.success videoId (fullTextOf (selectSegments body))
          (selectSegments body).length := rfl

/-- C9 as amended: for a structurally valid transcript with a non-empty
segment list, the result is a `TOO_SHORT` failure exactly when the
normalized text length is at most 10 characters; a normalized length of
at least 11 characters yields success. -/
theorem C9_too_short_threshold (videoId : String) (body : SegmentBodyShape)
    (h : selectSegments body ≠ []) :
    (extractText videoId (some body) =
        ExtractResult.failure "TOO_SHORT"
          ("Transcript too short (" ++
            toString (fullTextOf (selectSegments body)).length ++ " chars)") ↔
      (fullTextOf (selectSegments body)).length ≤ 10) ∧
    (10 < (fullTextOf (selectSegments body)).length →
      extractText videoId (some body) =
        ExtractResult.success videoId (fullTextOf (selectSegments body))
          (selectSegments body).length) := by
  have hne : ¬ (selectSegments body).length = 0 := by simpa using h
  rw [extractText_some, if_neg hne]
  by_cases h10 : (fullTextOf (selectSegments body)).length ≤ 10
  · rw [if_pos h10]
    exact ⟨⟨fun _ => h10, fun _ => rfl⟩, fun hgt => absurd h10 (by omega)⟩
  · rw [if_neg h10]
    refine ⟨⟨fun heq => ?_, fun hle => absurd hle h10⟩, fun _ => rfl⟩
    simp at heq

/-- Witness for C9's amended theorem: an 11-character transcript is
returned as success. -/
theorem C9_too_short_threshold_witness :
    extractText "v"
        (some (SegmentBodyShape.obj (some [⟨none, some "abcdefghijk"⟩]) none)) =
      ExtractResult.success "v"
        (fullTextOf (selectSegments
          (SegmentBodyShape.obj (some [⟨none, some "abcdefghijk"⟩]) none)))
        (selectSegments
          (SegmentBodyShape.obj (some [⟨none, some "abcdefghijk"⟩]) none)).length :=
  (C9_too_short_threshold "v"
      (SegmentBodyShape.obj (some [⟨none, some "abcdefghijk"⟩]) none)
      (by decide)).2 (by decide)

end TranscriptTheorems

section ChunkTheorems

open EmbeddingService

/-- `withIndexFrom` preserves length. -/
theorem withIndexFrom_length {α β : Type} (f : Nat → α → β) :
    ∀ (l : List α) (i : Nat), (withIndexFrom f i l).length = l.length
  | [], _ => rfl
  | _ :: as, i => by simp [withIndexFrom, withIndexFrom_length f as (i + 1)]

/-- The element at position `j` of `withIndexFrom f i l` is `f (i + j)`
of the corresponding element of `l`. -/
theorem withIndexFrom_get {α β : Type} (f : Nat → α → β) :
    ∀ (l : List α) (i j : Nat) (hj : j < l.length) (h : j < (withIndexFrom f i l).length),
      (withIndexFrom f i l).get ⟨j, h⟩ = f (i + j) (l.get ⟨j, hj⟩)
  | [], _, j, hj, _ => absurd hj (by simp)
  | a :: as, i, 0, _, _ => by simp [withIndexFrom]
  | a :: as, i, j + 1, hj, h => by
    have hj2 : j < as.length := by simpa using hj
    have h2 : j < (withIndexFrom f (i + 1) as).length := by
      rw [withIndexFrom_length]
      exact hj2
    have hstep := withIndexFrom_get f as (i + 1) j hj2 h2
    have harith : i + 1 + j = i + (j + 1) := by omega
    simp only [withIndexFrom, List.get_cons_succ]
    rw [hstep, harith]

/-- C5: every chunk produced by `splitTranscript` carries its own
position as `chunkIndex` and the length of the whole chunk sequence as
`totalChunks`; consequently `chunkIndex < totalChunks` for every chunk. -/
theorem C5_chunk_position_invariant {M : Type}
    (textSplitter : String → M → List (String × M)) (transcript : String)
    (metadata : M) (i : Nat)
    (h : i < (splitTranscript textSplitter transcript metadata).length) :
    ((splitTranscript textSplitter transcript metadata).get ⟨i, h⟩).chunkIndex = i ∧
      ((splitTranscript textSplitter transcript metadata).get ⟨i, h⟩).totalChunks =
        (splitTranscript textSplitter transcript metadata).length ∧
      ((splitTranscript textSplitter transcript metadata).get ⟨i, h⟩).chunkIndex <
        ((splitTranscript textSplitter transcript metadata).get ⟨i, h⟩).totalChunks := by
  have hlen : (splitTranscript textSplitter transcript metadata).length =
      (textSplitter transcript metadata).length :=
    withIndexFrom_length _ _ _
  have hi : i < (textSplitter transcript metadata).length := by omega
  have hget :
      (splitTranscript textSplitter transcript metadata).get ⟨i, h⟩ =
        { content := ((textSplitter transcript metadata).get ⟨i, hi⟩).1
          metadata := ((textSplitter transcript metadata).get ⟨i, hi⟩).2
          chunkIndex := 0 + i
          totalChunks := (textSplitter transcript metadata).length } :=
    withIndexFrom_get _ _ 0 i hi h
  rw [hget]
  exact ⟨by simp, by simp [hlen], by simpa using hi⟩

/-- Witness for C5: a two-chunk split; the second chunk carries index 1
and total 2. -/
theorem C5_chunk_position_invariant_witness :
    ((splitTranscript (fun t m => [(t, m), ("tail", m)]) "hello"
        (0 : Nat)).get ⟨1, by decide⟩).chunkIndex = 1 ∧
      ((splitTranscript (fun t m => [(t, m), ("tail", m)]) "hello"
          (0 : Nat)).get ⟨1, by decide⟩).totalChunks =
        (splitTranscript (fun t m => [(t, m), ("tail", m)]) "hello" (0 : Nat)).length ∧
      ((splitTranscript (fun t m => [(t, m), ("tail", m)]) "hello"
          (0 : Nat)).get ⟨1, by decide⟩).chunkIndex <
        ((splitTranscript (fun t m => [(t, m), ("tail", m)]) "hello"
            (0 : Nat)).get ⟨1, by decide⟩).totalChunks :=
  C5_chunk_position_invariant (fun t m => [(t, m), ("tail", m)]) "hello" 0 1 (by decide)

end ChunkTheorems

section VectorStoreTheorems

open VectorStoreService

/-- Re-concatenating the batches of `chunksOf` restores the input list
(for a positive batch size). -/
theorem chunksOf_flatten {α : Type} (n : Nat) (hn : 0 < n) :
    ∀ l : List α, (chunksOf n l).flatten = l := by
  have key : ∀ (k : Nat) (l : List α), l.length ≤ k → (chunksOf n l).flatten = l := by
    intro k
    induction k with
    | zero =>
      intro l hl
      have : l = [] := List.eq_nil_of_length_eq_zero (Nat.le_zero.mp hl)
      subst this
      simp [chunksOf]
    | succ k ih =>
      intro l hl
      cases l with
      | nil => simp [chunksOf]
      | cons a as =>
        rw [chunksOf, if_neg (Nat.pos_iff_ne_zero.mp hn)]
        simp only [List.flatten_cons]
        have h1 : (a :: as).length = as.length + 1 := by simp
        have h2 : ((a :: as).drop n).length = (a :: as).length - n :=
          List.length_drop n (a :: as)
        rw [ih ((a :: as).drop n) (by omega)]
        exact List.take_append_drop n (a :: as)
  exact fun l => key l.length l (Nat.le_refl _)

/-- C6: with a non-empty namespace `ns`, every record stored by
`upsertBatch` has its raw ID prefixed with `ns` and an underscore, and
`query` returns only prefixed IDs, truncated to `topK`; with the empty
(or absent) namespace, stored records pass through unchanged and query
results are merely truncated, not filtered. -/
theorem C6_namespace_roundtrip {α : Type} (ns : String) (chunks : List (VRec α))
    (batchSize : Nat) (results : List (VRec α)) (topK : Nat) (hb : 0 < batchSize) :
    (ns ≠ "" →
      (storedRecords ns chunks batchSize).map VRec.id =
          chunks.map (fun c => ns ++ "_" ++ c.id) ∧
        (∀ r ∈ query ns results topK, (ns ++ "_").isPrefixOf r.id = true) ∧
        (query ns results topK).length ≤ topK) ∧
    (ns = "" →
      storedRecords ns chunks batchSize = chunks ∧
        query ns results topK = results.take topK) := by
  constructor
  · intro hns
    refine ⟨?_, ?_, ?_⟩
    · unfold storedRecords upsertBatch
      have hap : applyNamespace ns =
          List.map (fun c : VRec α => { c with id := ns ++ "_" ++ c.id }) := by
        funext batch
        unfold applyNamespace
        rw [if_neg hns]
      rw [hap, ← List.map_flatten, chunksOf_flatten batchSize hb chunks, List.map_map]
      rfl
    · intro r hr
      unfold query at hr
      rw [if_neg hns] at hr
      have hr2 := List.mem_of_mem_take hr
      have := (List.mem_filter.mp hr2).2
      simp only [Bool.and_eq_true] at this
      exact this.2
    · unfold query
      rw [if_neg hns]
      exact List.length_take_le _ _
  · intro hns
    subst hns
    constructor
    · unfold storedRecords upsertBatch
      have hap : applyNamespace (α := α) "" = id := by
        funext batch
        simp [applyNamespace]
      rw [hap, List.map_id]
      exact chunksOf_flatten batchSize hb chunks
    · unfold query
      simp

/-- Witness for C6: namespace `p1` and raw id `v1_chunk_0` store as
`p1_v1_chunk_0`; an un-namespaced query is only truncated. -/
theorem C6_namespace_roundtrip_witness :
    (storedRecords "p1" [⟨"v1_chunk_0", (0 : Nat)⟩] 100).map VRec.id =
        ["p1_v1_chunk_0"] ∧
      query "" [⟨"a", (0 : Nat)⟩, ⟨"b", 0⟩, ⟨"c", 0⟩] 2 = [⟨"a", 0⟩, ⟨"b", 0⟩] :=
  ⟨((C6_namespace_roundtrip "p1" [⟨"v1_chunk_0", (0 : Nat)⟩] 100 [] 5
        (by decide)).1 (by decide)).1.trans (by decide),
   ((C6_namespace_roundtrip "" ([] : List (VRec Nat)) 100
        [⟨"a", (0 : Nat)⟩, ⟨"b", 0⟩, ⟨"c", 0⟩] 2 (by decide)).2 rfl).2.trans (by decide)⟩

end VectorStoreTheorems

section ServerTheorems

open Server

/-- When the cancellation flag is clear for the first `k` iterations and
set at iteration `k` (which exists), the per-video loop throws the
cancellation error, with the flag observed true. -/
theorem processLoop_cancels {Chunk : Type} (process : SVideo → Except String (List Chunk))
    (cancelFlagAt : Nat → Bool) (n k : Nat)
    (hbefore : ∀ i, i < k → cancelFlagAt i = false) (hat : cancelFlagAt k = true) :
    ∀ (l : List SVideo) (i : Nat) (emb : List Chunk) (st : IndexingStatus),
      i ≤ k → k < i + l.length →
      processLoop process cancelFlagAt n l i emb st =
        Except.error ("Indexing cancelled by user", true) := by
  intro l
  induction l with
  | nil =>
    intro i emb st hik hlen
    simp only [List.length_nil] at hlen
    omega
  | cons v rest ih =>
    intro i emb st hik hlen
    by_cases hik2 : i = k
    · subst hik2
      rw [processLoop, hat]
      simp
    · have hilt : i < k := lt_of_le_of_ne hik hik2
      have hnext : k < i + 1 + rest.length := by
        simp only [List.length_cons] at hlen
        omega
      rw [processLoop, hbefore i hilt]
      simp only [Bool.false_eq_true, if_false]
      by_cases hf : transcriptFalsy v = true
      · rw [if_pos hf]
        exact ih (i + 1) _ _ (by omega) hnext
      · rw [if_neg hf]
        cases hp : process v with
        | ok chunks => exact ih (i + 1) _ _ (by omega) hnext
        | error msg => exact ih (i + 1) _ _ (by omega) hnext

/-- C2 counterexample: three videos, each processing successfully to one
chunk, with cancellation requested after the first video completes (the
flag turns true from iteration 1 on).  The run does not end with
`processedVideos == 1` and the completed video's chunks upserted: the
catch handler resets `processedVideos` to 0 and the vector-store upsert
is never invoked, so the partial progress is discarded. -/
theorem C2_counterexample :
    (backgroundIndexing (C := Nat) "ch"
        [⟨"v1", "t1", "u1", some "text one"⟩, ⟨"v2", "t2", "u2", some "text two"⟩,
          ⟨"v3", "t3", "u3", some "text three"⟩]
        [] 3 (fun _ => Except.ok [1]) (fun _ => Except.ok ())
        (fun i => decide (1 ≤ i))).finalStatus.processedVideos = 0 ∧
      (backgroundIndexing (C := Nat) "ch"
        [⟨"v1", "t1", "u1", some "text one"⟩, ⟨"v2", "t2", "u2", some "text two"⟩,
          ⟨"v3", "t3", "u3", some "text three"⟩]
        [] 3 (fun _ => Except.ok [1]) (fun _ => Except.ok ())
        (fun i => decide (1 ≤ i))).finalStatus.cancelled = true ∧
      (backgroundIndexing (C := Nat) "ch"
        [⟨"v1", "t1", "u1", some "text one"⟩, ⟨"v2", "t2", "u2", some "text two"⟩,
          ⟨"v3", "t3", "u3", some "text three"⟩]
        [] 3 (fun _ => Except.ok [1]) (fun _ => Except.ok ())
        (fun i => decide (1 ≤ i))).finalStatus.message =
          "Error: Indexing cancelled by user" ∧
      (backgroundIndexing (C := Nat) "ch"
        [⟨"v1", "t1", "u1", some "text one"⟩, ⟨"v2", "t2", "u2", some "text two"⟩,
          ⟨"v3", "t3", "u3", some "text three"⟩]
        [] 3 (fun _ => Except.ok [1]) (fun _ => Except.ok ())
        (fun i => decide (1 ≤ i))).upsertCalledWith = none := by
  decide

/-- C2 as amended: if cancellation is requested during the per-video loop
— the flag is clear for the first `k` iterations and set at iteration
`k < n` — the loop's cancellation exception lands in the catch handler,
and the run ends with the reset status (`isIndexing = false`,
`processedVideos = 0`, `totalVideos = 0`, `cancelled = true`, message
`Error: Indexing cancelled by user`) and with the vector-store upsert
never invoked: the partial progress of the `k` completed videos is
discarded, not preserved. -/
theorem C2_cancellation_discards_progress {Chunk : Type} (channelId : String)
    (transcripts : List SVideo) (initialFailed : List FailedVideo) (tv : Nat)
    (process : SVideo → Except String (List Chunk))
    (upsert : List Chunk → Except String Unit)
    (cancelFlagAt : Nat → Bool) (k : Nat)
    (hk : k < transcripts.length)
    (hbefore : ∀ i, i < k → cancelFlagAt i = false)
    (hat : cancelFlagAt k = true) :
    backgroundIndexing channelId transcripts initialFailed tv process upsert cancelFlagAt =
      { finalStatus := catchStatus channelId "Indexing cancelled by user" true
        upsertCalledWith := none } := by
  have hloop := processLoop_cancels process cancelFlagAt transcripts.length k hbefore hat
    transcripts 0 [] (startStatus channelId tv initialFailed) (Nat.zero_le k) (by omega)
  simp only [backgroundIndexing, hloop]

/-- Witness for C2's amended theorem: the counterexample scenario,
derived through the general theorem at `k = 1`. -/
theorem C2_cancellation_discards_progress_witness :
    backgroundIndexing (C := Nat) "ch"
        [⟨"v1", "t1", "u1", some "text one"⟩, ⟨"v2", "t2", "u2", some "text two"⟩,
          ⟨"v3", "t3", "u3", some "text three"⟩]
        [] 3 (fun _ => Except.ok [1]) (fun _ => Except.ok ())
        (fun i => decide (1 ≤ i)) =
      { finalStatus := catchStatus "ch" "Indexing cancelled by user" true
        upsertCalledWith := none } :=
  C2_cancellation_discards_progress "ch" _ [] 3 _ _ _ 1 (by decide)
    (fun i hi => by
      have : i = 0 := by omega
      subst this
      rfl)
    rfl

end ServerTheorems

section RagTheorems

open RAGService

/-- C7: the query engine never raises.  For any provider outcomes, the
result of `query` is a plain returned value: when the search succeeds
with zero results, the answer is the fixed text containing
`couldn't find` with empty `sources` and `chunks`; and whenever any step
of the pipeline fails (the try body throws), the returned degraded
answer contains `encountered an error`, carries the error message in
`debug.error`, and has empty `sources` and `chunks`. -/
theorem C7_query_never_raises {V S : Type}
    (q1 p1 : String) (embed1 : Except String V)
    (search1 : V → Except String (List (SearchResult S)))
    (bp1 : String → Except String PromptConfig)
    (cp1 : PromptConfig → Except String String) (v1 : V)
    (h1 : embed1 = Except.ok v1) (h2 : search1 v1 = Except.ok [])
    (q2 p2 : String) (embed2 : Except String V)
    (search2 : V → Except String (List (SearchResult S)))
    (bp2 : String → Except String PromptConfig)
    (cp2 : PromptConfig → Except String String) (e : String) (dbg : DebugInfo)
    (h3 : queryTry q2 p2 embed2 search2 bp2 cp2 = Except.error (e, dbg)) :
    ((query q1 p1 embed1 search1 bp1 cp1).answer = noAnswerText ∧
      containsSub (query q1 p1 embed1 search1 bp1 cp1).answer couldntFind = true ∧
      (query q1 p1 embed1 search1 bp1 cp1).sources = [] ∧
      (query q1 p1 embed1 search1 bp1 cp1).chunks = []) ∧
    ((query q2 p2 embed2 search2 bp2 cp2).answer = errorAnswerText ∧
      containsSub (query q2 p2 embed2 search2 bp2 cp2).answer "encountered an error" = true ∧
      (query q2 p2 embed2 search2 bp2 cp2).debug.error = some e ∧
      (query q2 p2 embed2 search2 bp2 cp2).sources = [] ∧
      (query q2 p2 embed2 search2 bp2 cp2).chunks = []) := by
  have hq1 : queryTry q1 p1 embed1 search1 bp1 cp1 =
      Except.ok
        { answer := noAnswerText
          sources := []
          chunks := []
          debug :=
            { debug0 q1 p1 with
              context := "No relevant content found in knowledge base"
              systemPrompt := "No system prompt generated - no context available"
              userPrompt := "Question: " ++ q1 } } := by
    unfold queryTry
    rw [h1]
    simp only [h2]
    rfl
  constructor
  · refine ⟨?_, ?_, ?_, ?_⟩ <;> simp [query, hq1]
    decide
  · refine ⟨?_, ?_, ?_, ?_, ?_⟩ <;> simp [query, h3]
    decide

/-- Witness for C7: a concrete empty-index query and a concrete
embedding-failure query. -/
theorem C7_query_never_raises_witness :
    ((query "q" "default" (Except.ok ())
        (fun _ => Except.ok ([] : List (SearchResult Unit)))
        (fun _ => Except.ok ⟨"s", "u"⟩) (fun _ => Except.ok "a")).answer =
      noAnswerText) ∧
      ((query "q" "default"
          (Except.error "Vector store connection failed" : Except String Unit)
          (fun _ => Except.ok ([] : List (SearchResult Unit)))
          (fun _ => Except.ok ⟨"s", "u"⟩)
          (fun _ => Except.ok "a")).debug.error =
        some "Vector store connection failed") :=
  ⟨(C7_query_never_raises "q" "default" (Except.ok ())
      (fun _ => Except.ok ([] : List (SearchResult Unit)))
      (fun _ => Except.ok ⟨"s", "u"⟩) (fun _ => Except.ok "a") () rfl rfl
      "q" "default" (Except.error "Vector store connection failed")
      (fun _ => Except.ok ([] : List (SearchResult Unit)))
      (fun _ => Except.ok ⟨"s", "u"⟩) (fun _ => Except.ok "a")
      "Vector store connection failed" (debug0 "q" "default") rfl).1.1,
   (C7_query_never_raises "q" "default" (Except.ok ())
      (fun _ => Except.ok ([] : List (SearchResult Unit)))
      (fun _ => Except.ok ⟨"s", "u"⟩) (fun _ => Except.ok "a") () rfl rfl
      "q" "default" (Except.error "Vector store connection failed")
      (fun _ => Except.ok ([] : List (SearchResult Unit)))
      (fun _ => Except.ok ⟨"s", "u"⟩) (fun _ => Except.ok "a")
      "Vector store connection failed" (debug0 "q" "default") rfl).2.2.2.1⟩

/-- `insertEntry` affects the key sequence exactly like the first-seen
dedup step. -/
theorem insertEntry_fst {β : Type} (acc : List (String × β)) (e : String × β) :
    (insertEntry acc e).map Prod.fst =
      if e.1 ∈ acc.map Prod.fst then acc.map Prod.fst
      else acc.map Prod.fst ++ [e.1] := by
  unfold insertEntry
  by_cases h : acc.any (fun p => p.1 == e.1)
  · rw [if_pos h]
    have hmem : e.1 ∈ acc.map Prod.fst := by
      simp only [List.any_eq_true, beq_iff_eq] at h
      obtain ⟨p, hp, hpe⟩ := h
      exact List.mem_map.mpr ⟨p, hp, hpe⟩
    rw [if_pos hmem, List.map_map]
    apply List.map_congr_left
    intro p _
    by_cases hc : p.1 = e.1 <;> simp [hc]
  · rw [if_neg h]
    have hmem : e.1 ∉ acc.map Prod.fst := by
      intro hcon
      obtain ⟨p, hp, hfst⟩ := List.mem_map.mp hcon
      apply h
      simp only [List.any_eq_true, beq_iff_eq]
      exact ⟨p, hp, hfst⟩
    rw [if_neg hmem, List.map_append]
    rfl

/-- Folding `insertEntry` tracks the first-seen key dedup fold. -/
theorem foldl_insertEntry_fst {β : Type} :
    ∀ (es acc : List (String × β)),
      (es.foldl insertEntry acc).map Prod.fst =
        (es.map Prod.fst).foldl
          (fun ks k => if k ∈ ks then ks else ks ++ [k]) (acc.map Prod.fst)
  | [], _ => rfl
  | e :: es, acc => by
    simp only [List.foldl_cons, List.map_cons]
    rw [foldl_insertEntry_fst es (insertEntry acc e), insertEntry_fst]

/-- `insertEntry` preserves any value/key invariant satisfied by the
inserted entry. -/
theorem insertEntry_keyinv {β : Type} (keyOf : β → String)
    (acc : List (String × β)) (e : String × β)
    (hacc : ∀ p ∈ acc, keyOf p.2 = p.1) (he : keyOf e.2 = e.1) :
    ∀ p ∈ insertEntry acc e, keyOf p.2 = p.1 := by
  intro p hp
  unfold insertEntry at hp
  by_cases h : acc.any (fun q => q.1 == e.1)
  · rw [if_pos h] at hp
    obtain ⟨q, hq, hqe⟩ := List.mem_map.mp hp
    by_cases hc : q.1 = e.1
    · rw [if_pos hc] at hqe
      rw [← hqe]
      simpa [hc] using he
    · rw [if_neg hc] at hqe
      rw [← hqe]
      exact hacc q hq
  · rw [if_neg h] at hp
    rcases List.mem_append.mp hp with h2 | h2
    · exact hacc p h2
    · rw [List.mem_singleton.mp h2]
      exact he

/-- The map invariant extended over the whole fold. -/
theorem foldl_insertEntry_keyinv {β : Type} (keyOf : β → String) :
    ∀ (es acc : List (String × β)),
      (∀ p ∈ es, keyOf p.2 = p.1) → (∀ p ∈ acc, keyOf p.2 = p.1) →
      ∀ p ∈ es.foldl insertEntry acc, keyOf p.2 = p.1
  | [], _, _, hacc => hacc
  | e :: es, acc, hes, hacc => by
    simp only [List.foldl_cons]
    exact foldl_insertEntry_keyinv keyOf es (insertEntry acc e)
      (fun p hp => hes p (List.mem_cons_of_mem e hp))
      (insertEntry_keyinv keyOf acc e hacc (hes e (List.mem_cons_self e es)))

/-- One step of the first-seen dedup fold preserves `Nodup`. -/
theorem firstSeenDedup_step_nodup (ks : List String) (k : String) (h : ks.Nodup) :
    (if k ∈ ks then ks else ks ++ [k]).Nodup := by
  by_cases hk : k ∈ ks
  · rwa [if_pos hk]
  · rw [if_neg hk]
    simp [List.nodup_append, h, hk]

/-- The first-seen dedup never produces duplicate keys. -/
theorem firstSeenDedup_nodup (l : List String) : (firstSeenDedup l).Nodup := by
  have key : ∀ (l acc : List String), acc.Nodup →
      (l.foldl (fun ks k => if k ∈ ks then ks else ks ++ [k]) acc).Nodup := by
    intro l
    induction l with
    | nil => intro acc h; exact h
    | cons k ks ih =>
      intro acc h
      simp only [List.foldl_cons]
      exact ih _ (firstSeenDedup_step_nodup acc k h)
  exact key l [] List.nodup_nil

/-- C8: on a successful pipeline run with a non-empty result list, the
response's `sources` carry exactly the distinct result video IDs in
first-seen order (in particular, with no duplicates), while `chunks`
keeps one entry per search result. -/
theorem C8_source_dedup {V S : Type} (question profileId : String)
    (createEmbedding : Except String V)
    (search : V → Except String (List (SearchResult S)))
    (buildPrompt : String → Except String PromptConfig)
    (complete : PromptConfig → Except String String)
    (v : V) (results : List (SearchResult S)) (pc : PromptConfig) (ans : String)
    (h1 : createEmbedding = Except.ok v)
    (h2 : search v = Except.ok results)
    (hne : results ≠ [])
    (h3 : buildPrompt (buildContext results) = Except.ok pc)
    (h4 : complete pc = Except.ok ans) :
    ((query question profileId createEmbedding search buildPrompt complete).sources.map
        Source.videoId =
      firstSeenDedup (results.map (fun r => r.metadata.videoId))) ∧
      ((query question profileId createEmbedding search buildPrompt
          complete).sources.map Source.videoId).Nodup ∧
      (query question profileId createEmbedding search buildPrompt
          complete).chunks.length = results.length := by
  have hlen : ¬ results.length = 0 := by simpa using hne
  have hq : queryTry question profileId createEmbedding search buildPrompt complete =
      Except.ok
        { answer := ans
          sources := dedupeSources results
          chunks := results.map (fun r =>
            { content := r.metadata.content
              videoTitle := r.metadata.videoTitle
              score := r.score })
          debug :=
            { debug0 question profileId with
              chunksCount := results.length
              context := buildContext results
              systemPrompt := pc.systemPrompt
              userPrompt := pc.userPrompt } } := by
    unfold queryTry
    rw [h1]
    simp only [h2]
    rw [if_neg hlen]
    simp only [h3, h4]
  have hsrc : (query question profileId createEmbedding search buildPrompt
      complete).sources = dedupeSources results := by
    simp [query, hq]
  have hchunks : (query question profileId createEmbedding search buildPrompt
      complete).chunks.length = results.length := by
    simp [query, hq]
  have hdedup : (dedupeSources results).map Source.videoId =
      firstSeenDedup (results.map (fun r => r.metadata.videoId)) := by
    unfold dedupeSources
    have hinv := foldl_insertEntry_keyinv (Source.videoId)
      (results.map (fun r =>
        (r.metadata.videoId,
          ({ videoId := r.metadata.videoId
             title := r.metadata.videoTitle
             url := r.metadata.videoUrl } : Source)))) []
      (by
        intro p hp
        obtain ⟨r, _, hrp⟩ := List.mem_map.mp hp
        rw [← hrp])
      (by intro p hp; exact absurd hp (List.not_mem_nil p))
    rw [List.map_map]
    have hptwise :
        (jsMapEntries (results.map (fun r =>
            (r.metadata.videoId,
              ({ videoId := r.metadata.videoId
                 title := r.metadata.videoTitle
                 url := r.metadata.videoUrl } : Source))))).map
          (Source.videoId ∘ Prod.snd) =
        (jsMapEntries (results.map (fun r =>
            (r.metadata.videoId,
              ({ videoId := r.metadata.videoId
                 title := r.metadata.videoTitle
                 url := r.metadata.videoUrl } : Source))))).map Prod.fst := by
      apply List.map_congr_left
      intro p hp
      exact hinv p hp
    rw [hptwise]
    unfold jsMapEntries
    rw [foldl_insertEntry_fst]
    unfold firstSeenDedup
    rw [List.map_map]
    have hcomp : (Prod.fst ∘ fun r : SearchResult S =>
        (r.metadata.videoId,
          ({ videoId := r.metadata.videoId
             title := r.metadata.videoTitle
             url := r.metadata.videoUrl } : Source))) =
        fun r : SearchResult S => r.metadata.videoId := rfl
    rw [hcomp]
    rfl
  rw [hsrc, hdedup]
  exact ⟨rfl, firstSeenDedup_nodup _, hchunks⟩

/-- Witness for C8: three results where two share video ID `X` and one
has `Y` yield two deduplicated sources (in first-seen order) and three
chunks. -/
theorem C8_source_dedup_witness :
    ((query "q" "default" (Except.ok ())
        (fun _ => Except.ok
          [⟨(), ⟨"X", "tX", "uX", "c1"⟩⟩, ⟨(), ⟨"X", "tX", "uX", "c2"⟩⟩,
            ⟨(), ⟨"Y", "tY", "uY", "c3"⟩⟩])
        (fun _ => Except.ok ⟨"s", "u"⟩)
        (fun _ => Except.ok "a")).sources.map Source.videoId = ["X", "Y"]) ∧
      (query "q" "default" (Except.ok ())
        (fun _ => Except.ok
          [⟨(), ⟨"X", "tX", "uX", "c1"⟩⟩, ⟨(), ⟨"X", "tX", "uX", "c2"⟩⟩,
            ⟨(), ⟨"Y", "tY", "uY", "c3"⟩⟩])
        (fun _ => Except.ok ⟨"s", "u"⟩)
        (fun _ => Except.ok "a")).chunks.length = 3 :=
  ⟨(C8_source_dedup "q" "default" (Except.ok ()) _ _ _ ()
      [⟨(), ⟨"X", "tX", "uX", "c1"⟩⟩, ⟨(), ⟨"X", "tX", "uX", "c2"⟩⟩,
        ⟨(), ⟨"Y", "tY", "uY", "c3"⟩⟩] ⟨"s", "u"⟩ "a" rfl rfl
      (List.cons_ne_nil _ _) rfl rfl).1.trans (by decide),
   (C8_source_dedup "q" "default" (Except.ok ()) _ _ _ ()
      [⟨(), ⟨"X", "tX", "uX", "c1"⟩⟩, ⟨(), ⟨"X", "tX", "uX", "c2"⟩⟩,
        ⟨(), ⟨"Y", "tY", "uY", "c3"⟩⟩] ⟨"s", "u"⟩ "a" rfl rfl
      (List.cons_ne_nil _ _) rfl rfl).2.2⟩

end RagTheorems

section ChannelManagerTheorems

open ChannelManager

/-- C10 counterexample: a single `addIndexedVideos` call whose input list
repeats a new ID stores the duplicate — the dedup set is only consulted
against the previously recorded IDs, not within the incoming batch. -/
theorem C10_counterexample :
    addIndexedVideos none ["a", "a"] = ["a", "a"] ∧
      ¬ (addIndexedVideos none ["a", "a"]).Nodup := by
  decide

/-- One `addIndexedVideos` update only appends (existing IDs are never
removed). -/
theorem addIndexedVideosStep_extends (cur ids : List String) :
    ∃ s, addIndexedVideosStep cur ids = cur ++ s :=
  ⟨ids.filter (fun id => decide (id ∉ cur)), rfl⟩

/-- One `addIndexedVideos` update keeps the list duplicate-free when the
incoming batch is itself duplicate-free. -/
theorem addIndexedVideosStep_nodup (cur ids : List String)
    (h1 : cur.Nodup) (h2 : ids.Nodup) :
    (addIndexedVideosStep cur ids).Nodup := by
  unfold addIndexedVideosStep
  refine List.Nodup.append h1 (h2.filter _) ?_
  intro a ha hafil
  have := (List.mem_filter.mp hafil).2
  simp only [decide_eq_true_eq] at this
  exact this ha

/-- A fold of `addIndexedVideos` updates only appends. -/
theorem foldl_addIndexedVideosStep_extends :
    ∀ (calls : List (List String)) (cur : List String),
      ∃ s, calls.foldl addIndexedVideosStep cur = cur ++ s
  | [], cur => ⟨[], by simp⟩
  | c :: cs, cur => by
    obtain ⟨s2, h2⟩ := foldl_addIndexedVideosStep_extends cs (addIndexedVideosStep cur c)
    refine ⟨c.filter (fun id => decide (id ∉ cur)) ++ s2, ?_⟩
    simp only [List.foldl_cons]
    rw [h2]
    unfold addIndexedVideosStep
    rw [List.append_assoc]

/-- A fold of `addIndexedVideos` updates keeps the list duplicate-free
when every incoming batch is duplicate-free. -/
theorem foldl_addIndexedVideosStep_nodup :
    ∀ (calls : List (List String)) (cur : List String),
      cur.Nodup → (∀ l ∈ calls, l.Nodup) →
      (calls.foldl addIndexedVideosStep cur).Nodup
  | [], _, h, _ => h
  | c :: cs, cur, h, hc => by
    simp only [List.foldl_cons]
    exact foldl_addIndexedVideosStep_nodup cs (addIndexedVideosStep cur c)
      (addIndexedVideosStep_nodup cur c h (hc c (List.mem_cons_self c cs)))
      (fun l hl => hc l (List.mem_cons_of_mem c hl))

/-- C10 as amended: across any sequence of `addIndexedVideos` calls the
recorded IDs are never removed — each prior state is an initial run of
the next — and, provided each call's incoming list is itself
duplicate-free, the `indexedVideos` list stays duplicate-free; the
deduplication only guards against re-adding already-recorded IDs, so a
batch with an internal repeat of a new ID does introduce duplicates (see
the counterexample). -/
theorem C10_indexed_videos_growth (existing : Option (Option (List String)))
    (calls : List (List String))
    (h0 : (currentIndexed existing).Nodup)
    (hc : ∀ l ∈ calls, l.Nodup) :
    (∃ s, calls.foldl addIndexedVideosStep (currentIndexed existing) =
        currentIndexed existing ++ s) ∧
      (calls.foldl addIndexedVideosStep (currentIndexed existing)).Nodup ∧
      (calls = [] → ∀ ids,
        addIndexedVideos existing ids =
          addIndexedVideosStep (currentIndexed existing) ids) :=
  ⟨foldl_addIndexedVideosStep_extends calls (currentIndexed existing),
   foldl_addIndexedVideosStep_nodup calls (currentIndexed existing) h0 hc,
   fun _ _ => rfl⟩

/-- Witness for C10's amended theorem: two successive calls with
overlapping, internally duplicate-free batches preserve the recorded
prefix and stay duplicate-free. -/
theorem C10_indexed_videos_growth_witness :
    (∃ s, [["a", "b"], ["b", "c"]].foldl addIndexedVideosStep
        (currentIndexed (some (some ["a"]))) =
      currentIndexed (some (some ["a"])) ++ s) ∧
      ([["a", "b"], ["b", "c"]].foldl addIndexedVideosStep
        (currentIndexed (some (some ["a"])))).Nodup :=
  ⟨(C10_indexed_videos_growth (some (some ["a"])) [["a", "b"], ["b", "c"]]
      (by decide) (by decide)).1,
   (C10_indexed_videos_growth (some (some ["a"])) [["a", "b"], ["b", "c"]]
      (by decide) (by decide)).2.1⟩

end ChannelManagerTheorems
